import Mathlib

/-!
Verification development for the GH-Changelog-Email-Digest repository.

The Python sources (src/changelog.py, src/state.py) are shallowly embedded
below.  HTML parsing (BeautifulSoup) is modelled by an `Html` record holding
the parse results the code consumes: the anchor elements in document order,
the extracted body text, the list-item texts and the bold/strong texts.
Network calls (requests.get) are modelled by explicit environment functions
returning `Option` values, `none` standing for any transport/HTTP failure
(the code converts every such failure into a soft `None`/`False`).
The float threshold comparisons of the validator are modelled exactly by
cross-multiplied integer comparisons, and related to the rational ratios of
the specification by `ratioCross`.
-/

namespace Digest

/-- Python `str.lower()` (ASCII; the core `String.toLower` is byte-position
based and does not reduce in the kernel, so we map over the character list). -/
def lowerStr (s : String) : String := String.mk (s.toList.map Char.toLower)

/-- Python `str.strip()`: drop whitespace from both ends. -/
def trimStr (s : String) : String :=
  String.mk (((s.toList.dropWhile Char.isWhitespace).reverse.dropWhile
    Char.isWhitespace).reverse)

/-- Contiguous-sublist test used to model the Python `in` operator on
strings (`needle in hay`). -/
def listStartsW : List Char → List Char → Bool
  | [], _ => true
  | _ :: _, [] => false
  | a :: as, b :: bs => a == b && listStartsW as bs

/-- `containsSub hay needle` is true when `needle` occurs contiguously in
`hay` (Python substring containment, including the empty needle). -/
def containsSub : List Char → List Char → Bool
  | [], needle => needle.isEmpty
  | h :: t, needle => listStartsW needle (h :: t) || containsSub t needle

/-- Python `needle in hay` on strings. -/
def strContains (hay needle : String) : Bool :=
  containsSub hay.toList needle.toList

/-- The word-character test of the regex `\b` boundary (`\w`): alphanumeric
or underscore (ASCII, as in the texts the feed carries). -/
def isWordChar (c : Char) : Bool := c.isAlphanum || c == '_'

/-- Word-character test at index `i` of a string, out-of-range indices being
non-word (as `re` treats the virtual characters beyond the ends). -/
def wAt (s : List Char) (i : Nat) : Bool :=
  match s.get? i with
  | some c => isWordChar c
  | none => false

/-- The regex word-boundary `\b` at position `i` (between `i-1` and `i`). -/
def boundary (s : List Char) (i : Nat) : Bool :=
  (if i = 0 then false else wAt s (i - 1)) != wAt s i

/-- Greedy backtracking for the trailing `\b` of the token regexes: given the
match began at `start` and the token class can extend `k` characters past the
first, return the largest end position in `[start, start+k]` that sits on a
word boundary. -/
def findTokEnd (s : List Char) (start : Nat) : Nat → Option Nat
  | 0 => if boundary s start then some start else none
  | k + 1 => if boundary s (start + k + 1) then some (start + k + 1) else findTokEnd s start k

/-- One left-to-right scan of `re.findall` for the pattern
`\b[a-zA-Z]CLS*\b` where `CLS` is the continuation character class `cls`:
at each position try to match (leading boundary, alphabetic first character,
greedy run of `cls` characters, trailing boundary with backtracking);
on success emit the token and resume at its end, otherwise advance one
position.  `fuel` bounds the recursion (`length + 1` suffices). -/
def scanTokens (cls : Char → Bool) (s : List Char) : Nat → Nat → List String
  | _, 0 => []
  | pos, fuel + 1 =>
    match s.get? pos with
    | none => []
    | some c =>
      if c.isAlpha && boundary s pos then
        let k := ((s.drop (pos + 1)).takeWhile cls).length
        match findTokEnd s (pos + 1) k with
        | some e => String.mk ((s.drop pos).take (e - pos)) :: scanTokens cls s e fuel
        | none => scanTokens cls s (pos + 1) fuel
      else scanTokens cls s (pos + 1) fuel

/-- `re.findall(r'\b[a-zA-Z]CLS*\b', text)` for continuation class `cls`. -/
def findTokens (cls : Char → Bool) (text : String) : List String :=
  scanTokens cls text.toList 0 (text.toList.length + 1)

/-- Continuation class of the search-query token regex: `[a-zA-Z0-9+#-]`. -/
def searchCls (c : Char) : Bool :=
  c.isAlphanum || c == '+' || c == '#' || c == '-'

/-- Continuation class of the validator token regex: `[a-zA-Z0-9+#.-]`. -/
def validateCls (c : Char) : Bool :=
  c.isAlphanum || c == '+' || c == '#' || c == '.' || c == '-'

/-- Stopword list of `search_github_docs` (src/changelog.py lines 140-153),
transcribed verbatim. -/
def searchStopWords : List String :=
  ["the", "a", "an", "is", "are", "was", "were", "be", "been",
   "being", "have", "has", "had", "do", "does", "did", "will",
   "would", "could", "should", "may", "might", "must", "shall",
   "can", "need", "dare", "ought", "used", "to", "of", "in",
   "for", "on", "with", "at", "by", "from", "as", "into",
   "through", "during", "before", "after", "above", "below",
   "between", "under", "again", "further", "then", "once",
   "now", "generally", "available", "new", "and", "or", "but",
   "if", "because", "until", "while", "this", "that", "these",
   "those", "am", "it", "its", "it\x27s", "they", "them", "their",
   "what", "which", "who", "whom", "where", "when", "why", "how",
   "all", "each", "every", "both", "few", "more", "most", "other",
   "some", "such", "no", "nor", "not", "only", "own", "same",
   "so", "than", "too", "very", "just", "also"]

/-- Stopword list of `validate_docs_url` (src/changelog.py lines 221-234),
transcribed verbatim (the source set lists "are" twice; set semantics make
the duplicate irrelevant to membership). -/
def validateStopWords : List String :=
  ["the", "a", "an", "is", "are", "was", "were", "be", "been",
   "being", "have", "has", "had", "do", "does", "did", "will",
   "would", "could", "should", "may", "might", "must", "shall",
   "can", "need", "to", "of", "in", "for", "on", "with", "at",
   "by", "from", "as", "into", "through", "during", "before",
   "after", "now", "generally", "available", "new", "and", "or",
   "but", "if", "this", "that", "these", "those", "it", "its",
   "all", "each", "every", "both", "few", "more", "most", "other",
   "some", "such", "no", "not", "only", "own", "same", "so",
   "than", "too", "very", "just", "also", "github", "support",
   "supports", "update", "updates", "feature", "features",
   "track", "additional", "changes", "preview", "technical"]

/-- Keyword extraction of `search_github_docs`: lowercase, tokenize with the
search regex, drop stopwords and tokens of length ≤ 2. -/
def search_keywords (query : String) : List String :=
  (findTokens searchCls (lowerStr query)).filter
    (fun w => !searchStopWords.contains w && 2 < w.length)

/-- Keyword extraction of `validate_docs_url`: lowercase, tokenize with the
validator regex (which also allows `.`), drop the extended stopwords and
tokens of length ≤ 2. -/
def validate_keywords (title : String) : List String :=
  (findTokens validateCls (lowerStr title)).filter
    (fun w => !validateStopWords.contains w && 2 < w.length)

/-- Result of a successful page fetch, as consumed by the validator:
`text` models `soup.get_text(separator=" ", strip=True)` and `title` the
text of the page `<title>` element (`""` when absent). -/
structure Page where
  text : String
  title : String

/-- `validate_docs_url` (src/changelog.py lines 194-269).  `fetch url = none`
models any exception in the `try` block (transport error, non-2xx status),
which the code turns into `False`.  The source compares the ratios
`matches / len(keywords)` against the thresholds 0.60/0.50 (strict) or
0.40/0.30 (non-strict); with `len(keywords) > 0` that is exactly the
cross-multiplied integer comparison `100 * matches ≥ threshold% * len`
used here (the `summary` argument is accepted and ignored, as in the
source). -/
def validate_docs_url (fetch : String → Option Page) (url title summary : String)
    (strict : Bool) : Bool :=
  match fetch url with
  | none => false
  | some page =>
    let page_text := lowerStr page.text
    let page_title := lowerStr page.title
    let keywords := validate_keywords title
    if keywords.isEmpty then false
    else
      let bodyMatches := (keywords.filter (fun kw => strContains page_text kw)).length
      let titleMatches := (keywords.filter (fun kw => strContains page_title kw)).length
      let bodyThrPct : Nat := if strict then 60 else 40
      let titleThrPct : Nat := if strict then 50 else 30
      decide (100 * bodyMatches ≥ bodyThrPct * keywords.length ∨
        100 * titleMatches ≥ titleThrPct * keywords.length)

/-- An anchor (`<a href=...>` element) as BeautifulSoup yields it:
`href` is the target attribute, `text` the visible text (`get_text()`). -/
structure Anchor where
  href : String
  text : String

/-- The result-scanning loop of `search_github_docs` (lines 180-187): first
anchor whose href starts with `/en/` and avoids the excluded path fragments,
made absolute. -/
def searchResultScan (anchors : List Anchor) : Option String :=
  anchors.findSome? fun a =>
    if listStartsW "/en/".toList a.href.toList &&
       !strContains a.href "/search" &&
       !strContains a.href "/site-policy" &&
       !strContains a.href "/get-started/learning-about-github"
    then some ("https://docs.github.com" ++ a.href)
    else none

/-- `search_github_docs` (src/changelog.py lines 132-191).  The GET to the
search endpoint is modelled by `search`, which maps the search-query string
(the first six surviving keywords joined by spaces; the source URL-encodes it
into the request URL) to the anchors of the response page, `none` standing
for any transport/HTTP failure, which the `except` clause turns into
`None`. -/
def search_github_docs (search : String → Option (List Anchor)) (query : String) :
    Option String :=
  let keywords := search_keywords query
  if keywords.isEmpty then none
  else
    let search_query := String.intercalate " " (keywords.take 6)
    match search search_query with
    | none => none
    | some anchors => searchResultScan anchors

/-- The "learn more"-style phrase list of `extract_docs_url` (line 337). -/
def learnMorePhrases : List String :=
  ["learn more", "documentation", "read more", "see the docs", "view docs"]

/-- The rule chain applied to one anchor inside the loop of
`extract_docs_url` (lines 325-344): skip anchors with empty or
fragment-only (`#...`) targets (`none`), otherwise classify by the first
matching rule, highest priority first — official docs domain (`some 0`),
"learn more"-style visible text (`some 1`), blog domain without the
changelog path segment (`some 2`), other main-site link without the
changelog path segment (`some 3`), anything else unclassified (`none`). -/
def anchorBucket (a : Anchor) : Option Nat :=
  let href := a.href
  let link_text := trimStr (lowerStr a.text)
  if href = "" || listStartsW "#".toList href.toList then none
  else if strContains href "docs.github.com" then some 0
  else if learnMorePhrases.any (fun p => strContains link_text p) then some 1
  else if strContains href "github.blog" && !strContains href "/changelog/" then some 2
  else if strContains href "github.com" && !strContains href "/changelog/" then some 3
  else none

/-- The bucket-collecting loop of `extract_docs_url` (lines 325-344):
document-order traversal appending each anchor's href to the bucket chosen
by `anchorBucket` (the source's if/elif chain, factored out above). -/
def collectBuckets :
    List Anchor → List String → List String → List String → List String →
    List String × List String × List String × List String
  | [], docs_links, learn_more_links, github_blog_links, other_github_links =>
    (docs_links, learn_more_links, github_blog_links, other_github_links)
  | a :: rest, docs_links, learn_more_links, github_blog_links, other_github_links =>
    match anchorBucket a with
    | some 0 => collectBuckets rest (docs_links ++ [a.href]) learn_more_links
        github_blog_links other_github_links
    | some 1 => collectBuckets rest docs_links (learn_more_links ++ [a.href])
        github_blog_links other_github_links
    | some 2 => collectBuckets rest docs_links learn_more_links
        (github_blog_links ++ [a.href]) other_github_links
    | some 3 => collectBuckets rest docs_links learn_more_links
        github_blog_links (other_github_links ++ [a.href])
    | _ => collectBuckets rest docs_links learn_more_links github_blog_links
        other_github_links

/-- `extract_docs_url` (src/changelog.py lines 313-356): collect the four
priority buckets, then return the head of the first non-empty one in the
order docs → learn-more → blog → other. -/
def extract_docs_url (anchors : List Anchor) : Option String :=
  match collectBuckets anchors [] [] [] [] with
  | (docs_links, learn_more_links, github_blog_links, other_github_links) =>
    match docs_links, learn_more_links, github_blog_links, other_github_links with
    | d :: _, _, _, _ => some d
    | [], l :: _, _, _ => some l
    | [], [], b :: _, _ => some b
    | [], [], [], o :: _ => some o
    | [], [], [], [] => none

/-- The claim's description of the best-single-link resolution: the first
anchor, in document order, of the highest-priority non-empty bucket. -/
def extractDocsUrlSpec (anchors : List Anchor) : Option String :=
  let pick := fun b => (anchors.find? (fun a => anchorBucket a == some b)).map Anchor.href
  (pick 0).orElse fun _ => (pick 1).orElse fun _ => (pick 2).orElse fun _ => pick 3

/-- The hrefs of the anchors landing in bucket `k`, in document order. -/
def bucketList (k : Nat) (anchors : List Anchor) : List String :=
  (anchors.filter (fun a => anchorBucket a == some k)).map Anchor.href

/-- An HTML fragment as the code consumes it through BeautifulSoup:
`raw` is the original HTML string (for Python truthiness tests and for the
lowercased-substring haystack of the classifier), `text` the body text
`get_text` extracts (after script/style removal where the code removes
them), `anchors` the `<a href=...>` elements in document order, `liTexts`
the `<li>` texts in document order and `strongTexts` the `<strong>`/`<b>`
texts in document order. -/
structure Html where
  raw : String
  text : String
  anchors : List Anchor
  liTexts : List String
  strongTexts : List String

/-- The network collaborators of the enrichment pipeline: `fetch` models the
page GET of `validate_docs_url`, `search` the docs-search GET of
`search_github_docs` (keyed by the search-query string), and
`navigationPath` the whole navigation-path scraper `extract_navigation_path`
(a fetch followed by regex pattern-matching over the fetched page; its
output is a function of live network state alone and no claim concerns its
internals, so it is modelled as part of the environment). -/
structure Env where
  fetch : String → Option Page
  search : String → Option (List Anchor)
  navigationPath : String → Option String

/-- Strategy 3 of `search_docs_for_release` (lines 299-305): query the docs
search with the title and strictly validate any result. -/
def searchTier (env : Env) (title summary : String) : Option String :=
  match search_github_docs env.search title with
  | none => none
  | some r => if validate_docs_url env.fetch r title summary true then some r else none

/-- `search_docs_for_release` (src/changelog.py lines 272-310): embedded
link extraction guarded by the truthiness of `content_html`, then the three
validation tiers with early return.  In the source strategies 1 and 2 are
two sequential `if` blocks over the same `embedded_url`; their conditions
(`"docs.github.com" in embedded_url` and its negation) are mutually
exclusive, which the single `if` below folds into one test per branch. -/
def search_docs_for_release (env : Env) (title : String) (content : Html)
    (summary : String) : Option String :=
  let embedded := if content.raw ≠ "" then extract_docs_url content.anchors else none
  match embedded with
  | some u =>
    if strContains u "docs.github.com" then
      if validate_docs_url env.fetch u title summary false then some u
      else searchTier env title summary
    else
      if validate_docs_url env.fetch u title summary false then some u
      else searchTier env title summary
  | none => searchTier env title summary

/-- The claim's description of the docs resolver: an ordered list of
(candidate, strictness) tiers — the best embedded link when it contains the
official docs domain (non-strict), the best embedded link when it exists
but is not an official docs link (non-strict), the docs-search result for
the title (strict) — resolved to the first candidate that passes
validation, none when no tier yields a validated URL. -/
def docsResolverSpec (env : Env) (title : String) (content : Html)
    (summary : String) : Option String :=
  let best := if content.raw ≠ "" then extract_docs_url content.anchors else none
  let officialTier : Option String :=
    match best with
    | some u => if strContains u "docs.github.com" then some u else none
    | none => none
  let otherTier : Option String :=
    match best with
    | some u => if strContains u "docs.github.com" then none else some u
    | none => none
  [(officialTier, false), (otherTier, false), (search_github_docs env.search title, true)]
    |>.findSome? fun t =>
      match t.1 with
      | some u => if validate_docs_url env.fetch u title summary t.2 then some u else none
      | none => none

/-- Case-insensitive literal prefix match (`re` with `IGNORECASE` compares
lowercased characters; the patterns below are written lowercase). -/
def startsWithCI : List Char → List Char → Bool
  | [], _ => true
  | _ :: _, [] => false
  | p :: ps, h :: hs => p.toLower == h.toLower && startsWithCI ps hs

/-- `re.sub(pat, "", text, flags=re.IGNORECASE)` for a literal pattern
`pat`: remove every leftmost non-overlapping case-insensitive occurrence.
`fuel` bounds the scan (`length + 1` suffices for non-empty patterns). -/
def subLitFuel (pat : List Char) : Nat → List Char → List Char
  | 0, l => l
  | _ + 1, [] => []
  | fuel + 1, c :: rest =>
    if startsWithCI pat (c :: rest) then subLitFuel pat fuel ((c :: rest).drop pat.length)
    else c :: subLitFuel pat fuel rest

/-- `re.sub` removal of a case-insensitive literal pattern. -/
def subLit (pat text : String) : String :=
  String.mk (subLitFuel pat.toList (text.toList.length + 1) text.toList)

/-- Greedy backtracking for the `.+` of the boilerplate patterns: try the
consumed-character counts `k, k-1, ..., 1` and return the first (largest)
at which the literal suffix matches. -/
def tryDotEnds (suf body : List Char) : Nat → Option Nat
  | 0 => none
  | k + 1 =>
    if startsWithCI suf (body.drop (k + 1)) then some (k + 1) else tryDotEnds suf body k

/-- `re.sub(pre + ".+" + suf, "", text, flags=re.IGNORECASE)`: at each
position try to match the literal `pre`, then a greedy non-empty run of
non-newline characters (`.` does not cross newlines), then the literal
`suf`, backtracking the run to the longest length at which `suf` matches;
remove every leftmost non-overlapping match. -/
def subPreSufFuel (pre suf : List Char) : Nat → List Char → List Char
  | 0, l => l
  | _ + 1, [] => []
  | fuel + 1, c :: rest =>
    if startsWithCI pre (c :: rest) then
      let body := (c :: rest).drop pre.length
      let runL := (body.takeWhile (fun ch => ch != '\n')).length
      match tryDotEnds suf body runL with
      | some k => subPreSufFuel pre suf fuel ((body.drop k).drop suf.length)
      | none => c :: subPreSufFuel pre suf fuel rest
    else c :: subPreSufFuel pre suf fuel rest

/-- `re.sub` removal of a `pre .+ suf` case-insensitive pattern. -/
def subPreSuf (pre suf text : String) : String :=
  String.mk (subPreSufFuel pre.toList suf.toList (text.toList.length + 1) text.toList)

/-- `re.sub(r"Learn more\s*$", "", text, flags=re.IGNORECASE)`: a match
exists at a position exactly when "learn more" (case-insensitive) occurs
there and everything after it is whitespace (the greedy `\s*` then reaches
the end of the string, where `$` matches); the match extends to the end,
so removal keeps only the prefix. -/
def subLearnMoreFuel : Nat → List Char → List Char
  | 0, l => l
  | _ + 1, [] => []
  | fuel + 1, c :: rest =>
    if startsWithCI "learn more".toList (c :: rest) &&
       ((c :: rest).drop 10).all Char.isWhitespace then []
    else c :: subLearnMoreFuel fuel rest

/-- `re.sub` removal of the trailing "Learn more" boilerplate. -/
def subLearnMore (text : String) : String :=
  String.mk (subLearnMoreFuel (text.toList.length + 1) text.toList)

/-- The boilerplate-stripping sequence of `extract_detailed_summary`
(lines 451-459): the five patterns applied in order, each followed by
`.strip()`. -/
def stripBoilerplate (text : String) : String :=
  let t1 := trimStr (subPreSuf "the post " " appeared first on the github blog." text)
  let t2 := trimStr (subPreSuf "the post " " appeared first on github blog." t1)
  let t3 := trimStr (subLit "appeared first on the github blog." t2)
  let t4 := trimStr (subLit "appeared first on github blog." t3)
  trimStr (subLearnMore t4)

/-- `re.split(r'(?<=[.!?])\s+', text)` (line 462): split at every maximal
whitespace run whose preceding character is sentence-ending punctuation.
The accumulated current segment `cur` carries the original preceding
character as its last element, so the lookbehind inspects `cur`'s last
character.  `fuel` bounds the recursion (`length + 1` suffices). -/
def splitSentencesFuel : Nat → List Char → List Char → List String
  | 0, cur, _ => [String.mk cur]
  | _ + 1, cur, [] => [String.mk cur]
  | fuel + 1, cur, c :: rest =>
    if c.isWhitespace &&
       (match cur.getLast? with
        | some p => p == '.' || p == '!' || p == '?'
        | none => false) then
      String.mk cur :: splitSentencesFuel fuel [] (rest.dropWhile Char.isWhitespace)
    else
      splitSentencesFuel fuel (cur ++ [c]) rest

/-- Sentence splitting of the summarizer. -/
def splitSentences (text : String) : List String :=
  splitSentencesFuel (text.toList.length + 1) [] text.toList

/-- The sentence-accumulation loop of `extract_detailed_summary`
(lines 463-473): skip sentences shorter than 15 characters, take a sentence
while the running character count stays within the 350 budget, stop at the
first sentence that would exceed it. -/
def summaryLoop (cc : Nat) : List String → List String
  | [] => []
  | s :: rest =>
    if s.length < 15 then summaryLoop cc rest
    else if cc + s.length ≤ 350 then s :: summaryLoop (cc + s.length) rest
    else []

/-- The surviving sentences: those the loop does not skip (length ≥ 15). -/
def survivors (sentences : List String) : List String :=
  sentences.filter (fun s => 15 ≤ s.length)

/-- Total character count of a sentence list (the loop's running count). -/
def sumLens (l : List String) : Nat := (l.map String.length).sum

/-- The classifier result (`infer_feature_context`'s `context` dict).  The
`demo_flow` step list — fixed English click/say strings interpolating the
summary excerpt and features — is presentation payload no claim inspects
and is not modelled; `area`, `navigation`, `detailed_summary` and
`key_features` are embedded in full. -/
structure DemoContext where
  area : String
  navigation : Option String
  detailed_summary : String
  key_features : List String

/-- Result of `extract_all_relevant_links` (the `links` dict). -/
structure AllLinks where
  docs : Option String
  blog : Option String
  feature_page : Option String

/-- `ChangelogEntry` (src/changelog.py lines 41-54) together with the
attributes the enrichment pipeline sets dynamically
(`detailed_summary`, `key_features`, `all_links`, `demo_context`).
`published_dt` (only used for feed-age filtering, outside every claim) is
not modelled; `summary` and `content_html` are HTML strings, carried here
as `Html` parse records. -/
structure ChangelogEntry where
  title : String
  url : String
  published : String
  summary : Html
  content_html : Html
  category : String
  labels : List String
  demo_outline : Option String := none
  navigation_path : Option String := none
  docs_url : Option String := none
  detailed_summary : Option String := none
  key_features : List String := []
  all_links : Option AllLinks := none
  demo_context : Option DemoContext := none

/-- The RSS-summary fallback of `extract_detailed_summary` (lines 479-486):
parse the summary HTML, strip, remove the single boilerplate pattern,
strip, return — with no length cap; `""` when the summary is empty. -/
def rssFallback (e : ChangelogEntry) : String :=
  if e.summary.raw ≠ "" then
    trimStr (subPreSuf "the post " " appeared first on the github blog."
      (trimStr e.summary.text))
  else ""

/-- `extract_detailed_summary` (src/changelog.py lines 434-486): when the
body HTML is non-empty, strip boilerplate from its text, split into
sentences, accumulate within the 350-character budget and join with
spaces; when that yields no sentence — or the body HTML is empty — fall
back to the RSS summary. -/
def extract_detailed_summary (e : ChangelogEntry) : String :=
  if e.content_html.raw ≠ "" then
    let text := stripBoilerplate e.content_html.text
    let sentences := splitSentences text
    let summary_sentences := summaryLoop 0 sentences
    if summary_sentences ≠ [] then String.intercalate " " summary_sentences
    else rssFallback e
  else rssFallback e

/-- Whitespace normalization `re.sub(r'\s+', ' ', text)`: each whitespace
character becomes a space, runs collapsing to one (`prev` records whether
the previous character was whitespace). -/
def normSpaceAux : Bool → List Char → List Char
  | _, [] => []
  | prev, c :: rest =>
    if c.isWhitespace then
      if prev then normSpaceAux true rest else ' ' :: normSpaceAux true rest
    else c :: normSpaceAux false rest

/-- Whitespace normalization on strings. -/
def normSpace (s : String) : String := String.mk (normSpaceAux false s.toList)

/-- The list-item loop of `extract_key_features` (lines 500-505): keep
stripped `<li>` texts of length strictly between 15 and 150,
whitespace-normalized, in document order. -/
def collectLis : List String → List String
  | [] => []
  | t :: rest =>
    let text := trimStr t
    if 15 < text.length ∧ text.length < 150 then normSpace text :: collectLis rest
    else collectLis rest

/-- The bold/strong loop of `extract_key_features` (lines 508-511): append
stripped texts of length strictly between 5 and 80 not already present in
the features collected so far. -/
def addStrongs (features : List String) : List String → List String
  | [] => features
  | t :: rest =>
    let text := trimStr t
    if 5 < text.length ∧ text.length < 80 ∧ ¬features.contains text then
      addStrongs (features ++ [text]) rest
    else addStrongs features rest

/-- `extract_key_features` (src/changelog.py lines 489-513): list items
first, then new bold/strong texts, truncated to the first 4. -/
def extract_key_features (e : ChangelogEntry) : List String :=
  let features :=
    if e.content_html.raw ≠ "" then
      addStrongs (collectLis e.content_html.liTexts) e.content_html.strongTexts
    else []
  features.take 4

/-- The lowercase haystack of `infer_feature_context` (lines 521-525):
title, joined labels, raw body HTML and raw summary, lowercased and joined
with single spaces. -/
def allTextOf (e : ChangelogEntry) : String :=
  lowerStr e.title ++ " " ++ lowerStr (String.intercalate " " e.labels) ++ " " ++
    lowerStr e.content_html.raw ++ " " ++ lowerStr e.summary.raw

/-- `infer_feature_context` (src/changelog.py lines 516-846): the
first-match-wins keyword chain over the combined lowercase text, with the
sub-branch chains that pick each area's navigation hint.  The `demo_flow`
payload is not modelled (see `DemoContext`). -/
def infer_feature_context (e : ChangelogEntry) : DemoContext :=
  let all_text := allTextOf e
  let has := fun (kw : String) => strContains all_text kw
  let ds := extract_detailed_summary e
  let kf := extract_key_features e
  if has "copilot" then
    { area := "copilot",
      navigation := some (
        if has "agent" || has "agentic" then "VS Code → Copilot Chat → Agent Mode"
        else if has "chat" then "VS Code → Copilot Chat (Cmd+Shift+I)"
        else if has "code review" || has "review" then
          "github.com → Pull Request → Files changed tab"
        else if has "extension" || has "extensions" then
          "github.com → Marketplace → Copilot Extensions"
        else "github.com → Settings → Copilot"),
      detailed_summary := ds, key_features := kf }
  else if has "actions" || has "workflow" then
    { area := "actions",
      navigation := some (
        if has "runner" || has "runners" then "Repository → Settings → Actions → Runners"
        else if has "reusable" || has "composite" then
          "Repository → .github/workflows/ → workflow file"
        else "Repository → Actions tab"),
      detailed_summary := ds, key_features := kf }
  else if has "security" || has "dependabot" || has "secret" || has "vulnerability" ||
      has "ghas" || has "codeql" then
    { area := "security",
      navigation := some (
        if has "dependabot" then "Repository → Security tab → Dependabot"
        else if has "secret" then
          "Repository → Settings → Code security → Secret scanning"
        else if has "code scanning" || has "codeql" then
          "Repository → Security tab → Code scanning"
        else "Repository → Security tab → Overview"),
      detailed_summary := ds, key_features := kf }
  else if has "issues" || has "projects" || has "project" then
    { area := "projects", navigation := some "Repository or Organization → Projects tab",
      detailed_summary := ds, key_features := kf }
  else if has "pull request" || has "merge" || has " pr " then
    { area := "pull_requests", navigation := some "Repository → Pull requests tab",
      detailed_summary := ds, key_features := kf }
  else if has "codespace" then
    { area := "codespaces", navigation := some "Repository → Code button → Codespaces tab",
      detailed_summary := ds, key_features := kf }
  else if has "api" || has "graphql" || has "rest" then
    { area := "api", navigation := some "docs.github.com/rest or GraphQL Explorer",
      detailed_summary := ds, key_features := kf }
  else
    { area := "general", navigation := some "github.com",
      detailed_summary := ds, key_features := kf }

/-- `extract_all_relevant_links` (src/changelog.py lines 359-389): one pass
over the anchors recording the first docs link, the first non-changelog
blog link and the first feature-page link. -/
def extract_all_relevant_links (anchors : List Anchor) : AllLinks :=
  anchors.foldl
    (fun links a =>
      let href := a.href
      if href = "" || listStartsW "#".toList href.toList then links
      else if strContains href "docs.github.com" && links.docs.isNone then
        { links with docs := some href }
      else if strContains href "github.blog" && !strContains href "/changelog/" &&
          links.blog.isNone then
        { links with blog := some href }
      else if strContains href "github.com/features" && links.feature_page.isNone then
        { links with feature_page := some href }
      else links)
    ⟨none, none, none⟩

/-- `generate_demo_outline` (src/changelog.py lines 849-880): stores the
demo context on the entry, fills `navigation_path` from the context when
the entry has none, and renders the outline text.  The per-step click/say
lines are not modelled (see `DemoContext`); header, start line and link
lines are. -/
def generate_demo_outline (e : ChangelogEntry) : ChangelogEntry × String :=
  let context := infer_feature_context e
  let e1 : ChangelogEntry := { e with demo_context := some context }
  let startLines : List String :=
    match e1.navigation_path with
    | some nav => ["**Start:** `" ++ nav ++ "`"]
    | none =>
      match context.navigation with
      | some nav => ["**Start:** `" ++ nav ++ "`"]
      | none => []
  let e2 : ChangelogEntry :=
    match e1.navigation_path, context.navigation with
    | none, some nav => { e1 with navigation_path := some nav }
    | _, _ => e1
  let outline := String.intercalate "\n"
    (["## " ++ e.title, ""] ++ startLines ++ ["", "**Demo Flow:**", ""] ++
      (match e.docs_url with
       | some d => ["**Documentation:** [View full docs](" ++ d ++ ")"]
       | none => []) ++
      ["**Changelog:** [Read more](" ++ e.url ++ ")"])
  (e2, outline)

/-- The per-entry body of `enrich_entries_with_demo_outlines`
(src/changelog.py lines 883-909): set the derived fields — detailed
summary, key features, resolved docs URL, collected links — then for
Release entries the navigation path (scraped from the docs page when one
was resolved) and the demo outline, and for other entries the demo
context. -/
def enrich_entry (env : Env) (e : ChangelogEntry) : ChangelogEntry :=
  let e1 : ChangelogEntry :=
    { e with
      detailed_summary := some (extract_detailed_summary e),
      key_features := extract_key_features e,
      docs_url := search_docs_for_release env e.title e.content_html e.summary.raw,
      all_links := some (extract_all_relevant_links e.content_html.anchors) }
  if e1.category = "Release" then
    let e2 : ChangelogEntry :=
      match e1.docs_url with
      | some d => { e1 with navigation_path := env.navigationPath d }
      | none => e1
    let g := generate_demo_outline e2
    { g.1 with demo_outline := some g.2 }
  else
    { e1 with demo_context := some (infer_feature_context e1) }

/-- `enrich_entries_with_demo_outlines` (src/changelog.py lines 883-909):
enrich every entry of the batch. -/
def enrich_entries_with_demo_outlines (env : Env) (entries : List ChangelogEntry) :
    List ChangelogEntry :=
  entries.map (enrich_entry env)

/-- `filter_new_entries` (src/state.py lines 88-90): keep the entries whose
URL is not in the processed set. -/
def filter_new_entries (entries : List ChangelogEntry) (processed_urls : Finset String) :
    List ChangelogEntry :=
  entries.filter (fun e => decide (e.url ∉ processed_urls))

/-- `mark_entries_as_processed` (src/state.py lines 93-96): the union of the
processed set with the entries' URLs. -/
def mark_entries_as_processed (entries : List ChangelogEntry)
    (processed_urls : Finset String) : Finset String :=
  processed_urls ∪ (entries.map (fun e => e.url)).toFinset

/-- A single sentence of 351 characters, used as a concrete over-budget
body for the summarizer boundary claim. -/
def longSentence : String := String.mk (List.replicate 351 'a')

/-- Concrete entry whose body is one over-budget sentence and whose RSS
summary is empty: the summarizer returns the empty string. -/
def entryLongNoSummary : ChangelogEntry :=
  { title := "t", url := "u", published := "p",
    summary := ⟨"", "", [], [], []⟩,
    content_html := ⟨"<p>body</p>", longSentence, [], [], []⟩,
    category := "Improvement", labels := [] }

/-- Concrete entry whose body is one over-budget sentence but whose RSS
summary is non-empty: the summarizer falls back to the RSS summary. -/
def entryLongWithSummary : ChangelogEntry :=
  { title := "t", url := "u", published := "p",
    summary := ⟨"<p>Release notes are here.</p>", "Release notes are here.", [], [], []⟩,
    content_html := ⟨"<p>body</p>", longSentence, [], [], []⟩,
    category := "Improvement", labels := [] }

/-- A 40-character sentence. -/
def sentenceA : String := String.mk (List.replicate 39 'a') ++ "."

/-- A 200-character sentence. -/
def sentenceB : String := String.mk (List.replicate 199 'b') ++ "."

/-- A 200-character sentence. -/
def sentenceC : String := String.mk (List.replicate 199 'c') ++ "."

/-- Concrete entry whose body is three sentences of lengths 40, 200 and
200: the cumulative budget first exceeds 350 at the third sentence. -/
def entryBudget : ChangelogEntry :=
  { title := "t", url := "u", published := "p",
    summary := ⟨"", "", [], [], []⟩,
    content_html :=
      ⟨"<p>body</p>", sentenceA ++ " " ++ sentenceB ++ " " ++ sentenceC, [], [], []⟩,
    category := "Improvement", labels := [] }

/-- Concrete entry whose combined text contains both "copilot" (via a
label) and security-family keywords (via the body). -/
def entryCopilotSecurity : ChangelogEntry :=
  { title := "Secret scanning update", url := "u", published := "p",
    summary := ⟨"", "", [], [], []⟩,
    content_html := ⟨"security dependabot vulnerability", "", [], [], []⟩,
    category := "Improvement", labels := ["copilot"] }

/-- Concrete entry with six qualifying list items and two bold texts, for
the feature-extraction cap. -/
def entryManyFeatures : ChangelogEntry :=
  { title := "t", url := "u", published := "p",
    summary := ⟨"", "", [], [], []⟩,
    content_html := ⟨"<ul>items</ul>", "", [],
      ["First qualifying item text", "Second qualifying item text",
       "Third qualifying item text", "Fourth qualifying item text",
       "Fifth qualifying item text", "Sixth qualifying item text"],
      ["Bold point", "Second bold point"]⟩,
    category := "Release", labels := [] }

theorem collectBuckets_eq (anchors : List Anchor) :
    ∀ d l b o, collectBuckets anchors d l b o =
      (d ++ bucketList 0 anchors, l ++ bucketList 1 anchors,
       b ++ bucketList 2 anchors, o ++ bucketList 3 anchors) := by
  induction anchors with
  | nil => intro d l b o; simp [collectBuckets, bucketList]
  | cons a rest ih =>
    intro d l b o
    simp only [collectBuckets]
    rcases h : anchorBucket a with _ | k
    · simp [bucketList, List.filter_cons, h, ih]
    · rcases k with _ | _ | _ | _ | k <;>
        simp [bucketList, List.filter_cons, h, ih]

theorem bucketList_head? (k : Nat) (anchors : List Anchor) :
    (bucketList k anchors).head? =
      ((anchors.find? (fun a => anchorBucket a == some k)).map Anchor.href) := by
  induction anchors with
  | nil => simp [bucketList]
  | cons a rest ih =>
    by_cases h : anchorBucket a == some k
    · simp [bucketList, List.filter_cons, h, List.find?]
    · simp only [bucketList, List.filter_cons, h, List.find?] at ih ⊢
      simp [h, ih]

/-- C6: For every HTML fragment, the link extractor iterates anchors in
document order, skips anchors with empty or fragment-only targets,
classifies each remaining anchor by the first matching rule in priority
order (docs domain / learn-more text / blog / other main-site, both with
the changelog-segment exclusion), and returns as best single link the first
anchor, in document order, of the highest-priority non-empty bucket in the
order docs → learn-more → blog → other, or none when all buckets are
empty. -/
theorem extract_docs_url_spec_eq (anchors : List Anchor) :
    extract_docs_url anchors = extractDocsUrlSpec anchors := by
  have h0 := bucketList_head? 0 anchors
  have h1 := bucketList_head? 1 anchors
  have h2 := bucketList_head? 2 anchors
  have h3 := bucketList_head? 3 anchors
  simp only [extract_docs_url, extractDocsUrlSpec, collectBuckets_eq, List.nil_append]
  rcases hB0 : bucketList 0 anchors with _ | ⟨d, _⟩ <;>
    rcases hB1 : bucketList 1 anchors with _ | ⟨l, _⟩ <;>
      rcases hB2 : bucketList 2 anchors with _ | ⟨b, _⟩ <;>
        rcases hB3 : bucketList 3 anchors with _ | ⟨o, _⟩ <;>
          rw [hB0] at h0 <;> rw [hB1] at h1 <;> rw [hB2] at h2 <;> rw [hB3] at h3 <;>
            simp [← h0, ← h1, ← h2, ← h3, Option.orElse]

/-- C1: For every entry title, HTML body, and summary, the docs resolver
tries candidate URLs in a fixed priority order, short-circuiting on the
first validated one — embedded official-docs link validated non-strict,
then embedded non-docs link validated non-strict, then the docs-search
result validated strict — and returns none when no tier yields a validated
URL (first conjunct, a refinement against the claim-worded
`docsResolverSpec`); and for HTML with zero anchors the two embedded tiers
are skipped and only the search tier is attempted (second conjunct). -/
theorem search_docs_for_release_tiers (env : Env) (title : String) (content : Html)
    (summary raw text : String) (li st : List String) :
    search_docs_for_release env title content summary =
      docsResolverSpec env title content summary ∧
    search_docs_for_release env title ⟨raw, text, [], li, st⟩ summary =
      searchTier env title summary := by
  constructor
  · unfold search_docs_for_release docsResolverSpec
    rcases hE : (if content.raw ≠ "" then extract_docs_url content.anchors else none)
      with _ | u
    · rcases hs : search_github_docs env.search title with _ | r
      · simp [hE, hs, List.findSome?, searchTier]
      · by_cases hv2 : validate_docs_url env.fetch r title summary true = true <;>
          simp [hE, hs, hv2, List.findSome?, searchTier]
    · by_cases hd : strContains u "docs.github.com" = true <;>
        by_cases hv : validate_docs_url env.fetch u title summary false = true
      · simp [hE, hd, hv, List.findSome?]
      · rcases hs : search_github_docs env.search title with _ | r
        · simp [hE, hd, hv, hs, List.findSome?, searchTier]
        · by_cases hv2 : validate_docs_url env.fetch r title summary true = true <;>
            simp [hE, hd, hv, hs, hv2, List.findSome?, searchTier]
      · simp [hE, hd, hv, List.findSome?]
      · rcases hs : search_github_docs env.search title with _ | r
        · simp [hE, hd, hv, hs, List.findSome?, searchTier]
        · by_cases hv2 : validate_docs_url env.fetch r title summary true = true <;>
            simp [hE, hd, hv, hs, hv2, List.findSome?, searchTier]
  · unfold search_docs_for_release
    have hext : extract_docs_url ([] : List Anchor) = none := rfl
    by_cases hr : raw ≠ "" <;> simp [hr, hext]

/-- C7: For every query string, the docs search client tokenizes into
lowercase word tokens (alphanumeric plus `+#-`), drops stopword tokens and
tokens shorter than 3 characters (all inside `search_keywords`), and
returns none when no tokens remain; otherwise the search string is exactly
the first 6 (or fewer) surviving tokens joined by spaces, and the response
is scanned by `searchResultScan` (first conjunct); any transport or HTTP
failure — a `none` response — yields none rather than a propagated
exception (second conjunct). -/
theorem search_github_docs_contract (search : String → Option (List Anchor))
    (query : String) :
    search_github_docs search query =
      (if (search_keywords query).isEmpty then none
       else ((search (String.intercalate " " ((search_keywords query).take 6))).bind
         searchResultScan)) ∧
    search_github_docs (fun _ => none) query = none := by
  constructor
  · unfold search_github_docs
    by_cases hk : (search_keywords query).isEmpty = true
    · simp [hk]
    · rcases h : search (String.intercalate " " ((search_keywords query).take 6))
        with _ | anchors <;> simp [hk, h]
  · unfold search_github_docs
    by_cases hk : (search_keywords query).isEmpty = true <;> simp [hk]

/-- The rational threshold comparison of the specification is the
cross-multiplied comparison computed by `validate_docs_url` (stated over a
rational threshold `q`, so numerals match syntactically). -/
theorem ratioCross (m n : Nat) (q : ℚ) (hn : 0 < n) :
    ((m : ℚ) / (n : ℚ) ≥ q / 100) ↔ (q * (n : ℚ) ≤ 100 * (m : ℚ)) := by
  rw [ge_iff_le, div_le_div_iff₀ (by norm_num : (0:ℚ) < 100)
    (by exact_mod_cast hn : (0:ℚ) < (n : ℚ))]
  rw [mul_comm (m : ℚ) 100]

/-- C2: For every candidate URL whose page fetch succeeds and whose entry
title yields at least one keyword, `validate_docs_url` accepts if and only
if the fraction of title keywords present in the page body text reaches the
body threshold or the fraction present in the page's own title reaches the
title threshold, the thresholds being (0.60, 0.50) when strict and
(0.40, 0.30) otherwise. -/
theorem validate_docs_url_iff (fetch : String → Option Page)
    (url title summary : String) (strict : Bool) (page : Page)
    (hf : fetch url = some page) (hk : validate_keywords title ≠ []) :
    (validate_docs_url fetch url title summary strict = true ↔
      ((((validate_keywords title).filter
            (fun kw => strContains (lowerStr page.text) kw)).length : ℚ) /
          ((validate_keywords title).length : ℚ) ≥
            (if strict then (60 : ℚ) / 100 else 40 / 100) ∨
       (((validate_keywords title).filter
            (fun kw => strContains (lowerStr page.title) kw)).length : ℚ) /
          ((validate_keywords title).length : ℚ) ≥
            (if strict then (50 : ℚ) / 100 else 30 / 100))) := by
  have hn : 0 < (validate_keywords title).length := List.length_pos.mpr hk
  unfold validate_docs_url
  rw [hf]
  have hke : (validate_keywords title).isEmpty = false := by
    simp [List.isEmpty_iff, hk]
  simp only [hke, Bool.false_eq_true, if_false, decide_eq_true_eq]
  cases strict <;>
    simp only [if_true, if_false, Bool.false_eq_true, Bool.true_eq_false] <;>
      rw [ratioCross _ _ _ hn, ratioCross _ _ _ hn] <;>
        exact_mod_cast Iff.rfl

/-- Witness for C2 at a concrete input: the fetch succeeds, the title
yields the keywords ["copilot", "agents"], and the equivalence holds with
the non-strict thresholds. -/
theorem validate_docs_url_iff_witness :
    ((((validate_keywords "Copilot agents").filter
          (fun kw => strContains (lowerStr "All about copilot agents") kw)).length : ℚ) /
        ((validate_keywords "Copilot agents").length : ℚ) ≥
          (if false then (60 : ℚ) / 100 else 40 / 100) ∨
     (((validate_keywords "Copilot agents").filter
          (fun kw => strContains (lowerStr "Some page") kw)).length : ℚ) /
        ((validate_keywords "Copilot agents").length : ℚ) ≥
          (if false then (50 : ℚ) / 100 else 30 / 100)) :=
  (validate_docs_url_iff (fun _ => some ⟨"All about copilot agents", "Some page"⟩)
    "https://docs.github.com/en/x" "Copilot agents" "" false
    ⟨"All about copilot agents", "Some page"⟩ rfl (by decide)).mp (by decide)

/-- C3: For identical fetched page content, strict validation accepting
implies non-strict validation accepting: the strict acceptance set is a
subset of the non-strict one. -/
theorem validate_strict_subset (fetch : String → Option Page)
    (url title summary : String)
    (h : validate_docs_url fetch url title summary true = true) :
    validate_docs_url fetch url title summary false = true := by
  unfold validate_docs_url at h ⊢
  rcases hf : fetch url with _ | page <;> rw [hf] at h
  · exact absurd h (by simp)
  · by_cases hk : (validate_keywords title).isEmpty = true
    · simp [hk] at h
    · simp only [hk, Bool.false_eq_true, if_false, if_true,
        decide_eq_true_eq] at h ⊢
      rcases h with h | h
      · exact Or.inl (by omega)
      · exact Or.inr (by omega)

/-- Witness for C3 at a concrete input: a page that passes strict
validation also passes non-strict validation. -/
theorem validate_strict_subset_witness :
    validate_docs_url (fun _ => some ⟨"All about copilot agents", "Copilot agents"⟩)
      "https://docs.github.com/en/x" "Copilot agents" "" false = true :=
  validate_strict_subset _ _ _ _ (by decide)

theorem sumLens_nil : sumLens [] = 0 := rfl

theorem sumLens_cons (s : String) (l : List String) :
    sumLens (s :: l) = s.length + sumLens l := by
  simp [sumLens]

/-- The sentence-accumulation loop returns exactly the surviving sentences
before the first one at which the running count would exceed the budget. -/
theorem summaryLoop_take (l : List String) :
    ∀ cc m, 350 < cc + sumLens ((survivors l).take (m + 1)) →
      cc + sumLens ((survivors l).take m) ≤ 350 →
      summaryLoop cc l = (survivors l).take m := by
  induction l with
  | nil =>
    intro cc m _ _
    simp [survivors, summaryLoop]
  | cons s rest ih =>
    intro cc m h1 h2
    by_cases hs : s.length < 15
    · have hsv : survivors (s :: rest) = survivors rest := by
        simp only [survivors, List.filter_cons]
        have : ¬(15 ≤ s.length) := by omega
        simp [this]
      rw [hsv] at h1 h2 ⊢
      rw [summaryLoop, if_pos hs]
      exact ih cc m h1 h2
    · have hsv : survivors (s :: rest) = s :: survivors rest := by
        simp only [survivors, List.filter_cons]
        have : 15 ≤ s.length := by omega
        simp [this]
      rw [hsv] at h1 h2 ⊢
      cases m with
      | zero =>
        rw [List.take_succ_cons, List.take_zero, sumLens_cons, sumLens_nil] at h1
        rw [summaryLoop, if_neg hs, if_neg (by omega)]
        simp
      | succ m0 =>
        rw [List.take_succ_cons, sumLens_cons] at h1 h2
        rw [summaryLoop, if_neg hs, if_pos (by omega), List.take_succ_cons]
        have := ih (cc + s.length) m0 (by omega) (by omega)
        rw [this]

/-- C4 (amended): For every entry whose body HTML splits into exactly one
sentence longer than 350 characters (no shorter sentence preceding it), the
body phase of the summarizer yields no sentence and the function falls back
to the RSS summary — returning the empty summary when the RSS summary is
empty; and for every body whose surviving sentences (those of length ≥ 15;
shorter ones are skipped) first exceed the 350-character cumulative budget
at sentence `m + 1`, with at least one surviving sentence before it, the
summarizer returns exactly the surviving sentences `1..m` joined with
spaces. -/
theorem extract_detailed_summary_budget (e : ChangelogEntry) (s : String) (m : Nat) :
    (e.content_html.raw ≠ "" →
      splitSentences (stripBoilerplate e.content_html.text) = [s] →
      350 < s.length →
      extract_detailed_summary e = rssFallback e ∧
        (e.summary.raw = "" → extract_detailed_summary e = "")) ∧
    (e.content_html.raw ≠ "" →
      350 < sumLens ((survivors
        (splitSentences (stripBoilerplate e.content_html.text))).take (m + 1)) →
      sumLens ((survivors
        (splitSentences (stripBoilerplate e.content_html.text))).take m) ≤ 350 →
      (survivors (splitSentences (stripBoilerplate e.content_html.text))).take m ≠ [] →
      extract_detailed_summary e =
        String.intercalate " " ((survivors
          (splitSentences (stripBoilerplate e.content_html.text))).take m)) := by
  constructor
  · intro hr hsp hl
    have hloop : summaryLoop 0 [s] = [] := by
      rw [summaryLoop, if_neg (by omega), if_neg (by omega)]
    have hres : extract_detailed_summary e = rssFallback e := by
      simp [extract_detailed_summary, hr, hsp, hloop]
    refine ⟨hres, fun hsum => ?_⟩
    rw [hres, rssFallback, if_neg (by simp [hsum])]
  · intro hr h1 h2 h3
    have hloop := summaryLoop_take
      (splitSentences (stripBoilerplate e.content_html.text)) 0 m
      (by simpa using h1) (by simpa using h2)
    simp [extract_detailed_summary, hr, hloop, h3]

theorem addStrongs_extends (st : List String) :
    ∀ A, ∃ B, addStrongs A st = A ++ B := by
  induction st with
  | nil => intro A; exact ⟨[], by simp [addStrongs]⟩
  | cons t rest ih =>
    intro A
    rw [addStrongs]
    split
    · obtain ⟨B, hB⟩ := ih (A ++ [trimStr t])
      exact ⟨trimStr t :: B, by rw [hB, List.append_assoc]; rfl⟩
    · exact ih A

theorem take_append_left (A B : List String) (n : Nat) (h : n ≤ A.length) :
    (A ++ B).take n = A.take n := by
  induction A generalizing n with
  | nil => simp at h; simp [h]
  | cons a as ih =>
    cases n with
    | zero => simp
    | succ n0 =>
      simp only [List.cons_append, List.take_succ_cons]
      rw [ih n0 (by simpa using h)]

set_option maxRecDepth 400000 in
/-- Counterexample to C4 as stated: the body of `entryLongWithSummary`
splits into exactly one sentence of length 351 > 350 (no shorter sentence
precedes it), yet the summarizer returns the non-empty stripped RSS
summary, not an empty summary — the body phase yielding nothing makes the
code fall back to the RSS summary. -/
theorem extract_detailed_summary_long_counterexample :
    splitSentences (stripBoilerplate entryLongWithSummary.content_html.text) =
      [longSentence] ∧
    350 < longSentence.length ∧
    extract_detailed_summary entryLongWithSummary = "Release notes are here." ∧
    extract_detailed_summary entryLongWithSummary ≠ "" := by
  refine ⟨by decide, by decide, by decide, by decide⟩

set_option maxRecDepth 400000 in
/-- Witness for the amended C4 at concrete inputs: with an empty RSS
summary the over-budget single sentence yields the empty string, and a
40+200+200-character sentence sequence (first exceeding the budget at the
third sentence) yields the first two sentences joined by a space. -/
theorem extract_detailed_summary_budget_witness :
    extract_detailed_summary entryLongNoSummary = "" ∧
    extract_detailed_summary entryBudget = sentenceA ++ " " ++ sentenceB := by
  constructor
  · exact ((extract_detailed_summary_budget entryLongNoSummary longSentence 0).1
      (by decide) (by decide) (by decide)).2 (by decide)
  · have h := (extract_detailed_summary_budget entryBudget "" 2).2
      (by decide) (by decide) (by decide) (by decide)
    rw [h]
    decide

/-- C10: Filtering a batch against the set produced by marking that very
batch yields the empty list: `mark_entries_as_processed` returns the union
of the given set with the entries URLs, and `filter_new_entries` keeps
exactly the entries whose URL is not in the given set. -/
theorem filter_new_after_mark (entries : List ChangelogEntry)
    (processed_urls : Finset String) :
    filter_new_entries entries (mark_entries_as_processed entries processed_urls) = [] := by
  unfold filter_new_entries mark_entries_as_processed
  rw [List.filter_eq_nil_iff]
  intro e he
  simp only [decide_eq_true_eq, Decidable.not_not]
  exact Finset.mem_union_right _ (List.mem_toFinset.mpr (List.mem_map.mpr ⟨e, he, rfl⟩))

/-- C5: For every entry whose combined lowercase text contains "copilot",
the classifier assigns the copilot area — the copilot predicate heads the
first-match-wins chain, so security-family keywords in the same text cannot
preempt it. -/
theorem infer_area_copilot (e : ChangelogEntry)
    (h : strContains (allTextOf e) "copilot" = true) :
    (infer_feature_context e).area = "copilot" := by
  unfold infer_feature_context
  simp [h]

/-- Witness for C5 at a concrete input: an entry carrying the label
"copilot" and a body with security-family keywords is classified under the
copilot area. -/
theorem infer_area_copilot_witness :
    strContains (allTextOf entryCopilotSecurity) "security" = true ∧
    strContains (allTextOf entryCopilotSecurity) "dependabot" = true ∧
    (infer_feature_context entryCopilotSecurity).area = "copilot" :=
  ⟨by decide, by decide, infer_area_copilot entryCopilotSecurity (by decide)⟩

/-- C8: The feature extractor returns at most 4 strings; on a non-empty
body they are the qualifying list-item texts (document order,
whitespace-normalized) followed by the new qualifying bold/strong texts,
truncated to 4 — and when at least 4 qualifying list items exist the output
is exactly the first 4 list items, so it contains no bold-text item. -/
theorem extract_key_features_spec (e : ChangelogEntry) :
    (extract_key_features e).length ≤ 4 ∧
    (e.content_html.raw ≠ "" →
      extract_key_features e =
        (addStrongs (collectLis e.content_html.liTexts)
          e.content_html.strongTexts).take 4) ∧
    (e.content_html.raw ≠ "" → 4 ≤ (collectLis e.content_html.liTexts).length →
      extract_key_features e = (collectLis e.content_html.liTexts).take 4) := by
  refine ⟨?_, ?_, ?_⟩
  · unfold extract_key_features
    split <;> simp
  · intro h
    simp [extract_key_features, h]
  · intro h h4
    obtain ⟨B, hB⟩ :=
      addStrongs_extends e.content_html.strongTexts (collectLis e.content_html.liTexts)
    simp only [extract_key_features, h, ne_eq, not_false_iff, if_true, hB]
    exact take_append_left _ _ _ h4

/-- Witness for C8 at a concrete input: six qualifying list items and two
bold texts yield exactly the first four list items. -/
theorem extract_key_features_spec_witness :
    extract_key_features entryManyFeatures =
      ["First qualifying item text", "Second qualifying item text",
       "Third qualifying item text", "Fourth qualifying item text"] := by
  have h := (extract_key_features_spec entryManyFeatures).2.2 (by decide) (by decide)
  rw [h]
  decide

/-- C9: Enrichment writes only derived fields: after
`enrich_entries_with_demo_outlines` runs, each entry keeps its identity
fields title, url, category and labels unchanged. -/
theorem enrich_entry_frame (env : Env) (e : ChangelogEntry) :
    (enrich_entry env e).title = e.title ∧ (enrich_entry env e).url = e.url ∧
    (enrich_entry env e).category = e.category ∧
    (enrich_entry env e).labels = e.labels := by
  refine ⟨?_, ?_, ?_, ?_⟩ <;>
    · simp only [enrich_entry, generate_demo_outline]
      repeat' split <;> try rfl

/-- C9 (batch form): the enrichment orchestrator preserves every entry
identity field across the batch. -/
theorem enrich_preserves_identity (env : Env) (entries : List ChangelogEntry) :
    (enrich_entries_with_demo_outlines env entries).map ChangelogEntry.title =
      entries.map ChangelogEntry.title ∧
    (enrich_entries_with_demo_outlines env entries).map ChangelogEntry.url =
      entries.map ChangelogEntry.url ∧
    (enrich_entries_with_demo_outlines env entries).map ChangelogEntry.category =
      entries.map ChangelogEntry.category ∧
    (enrich_entries_with_demo_outlines env entries).map ChangelogEntry.labels =
      entries.map ChangelogEntry.labels := by
  unfold enrich_entries_with_demo_outlines
  refine ⟨?_, ?_, ?_, ?_⟩ <;>
    · rw [List.map_map]
      apply List.map_congr_left
      intro e _
      obtain ⟨h1, h2, h3, h4⟩ := enrich_entry_frame env e
      simp [h1, h2, h3, h4]

end Digest
